import Mathlib

/-!
Shallow embedding of the snowflake id generator in `src/src/lib.rs`.

The generator reads the wall clock through `get_time`; in this embedding
every call to `gen` receives the clock reading (elapsed milliseconds since
the epoch, a non-negative integer, as in the spec's model of the clock) as
an explicit argument.  The `sleep` in the sequence-exhaustion branch has no
effect on the generator state; the branch is modelled by its only
state-visible effect, `millis + 1`.  Machine integers (`u16`, `u32`, `i64`)
are modelled as `ℕ`: all values reached by the code stay far below the
respective bounds for the ranges the claims quantify over, so no wraparound
arises.  `SystemTime` values (the epoch) are inert data here and are
modelled as `ℕ` as well.
-/

/-- Constant `MAX_17_BITS: u32 = 131071` from the source. -/
def MAX_17_BITS : ℕ := 131071

/-- Constant `MAX_2_BITS: u16 = 3` from the source. -/
def MAX_2_BITS : ℕ := 3

/-- Model of `UNIX_EPOCH`, the reference origin used by `new`. -/
def UNIX_EPOCH : ℕ := 0

/-- Error type `SnowflakeError` from the source. -/
inductive SnowflakeError where
  | InvalidServiceIdError
deriving DecidableEq, Repr

/-- Error type `ConcurrentSnowflakeError` from the source. -/
inductive ConcurrentSnowflakeError where
  | PoisonError
  | SnowflakeError (e : SnowflakeError)
deriving DecidableEq, Repr

/-- Generator state `struct Snowflake` from the source:
`epoch: SystemTime`, `service_id: u16`, `last_millis: i64`, `seq: u32`. -/
structure Snowflake where
  epoch : ℕ
  service_id : ℕ
  last_millis : ℕ
  seq : ℕ
deriving DecidableEq, Repr

/-- Constructor `Snowflake::with_epoch`: rejects `service_id > MAX_2_BITS`
with `InvalidServiceIdError`, otherwise starts with `last_millis = 0`,
`seq = 0`. -/
def Snowflake.with_epoch (service_id epoch : ℕ) : Except SnowflakeError Snowflake :=
  if service_id > MAX_2_BITS then
    Except.error SnowflakeError.InvalidServiceIdError
  else
    Except.ok { epoch := epoch, service_id := service_id, last_millis := 0, seq := 0 }

/-- Constructor `Snowflake::new`: `with_epoch` at `UNIX_EPOCH`. -/
def Snowflake.new (service_id : ℕ) : Except SnowflakeError Snowflake :=
  Snowflake.with_epoch service_id UNIX_EPOCH

/-- Method `Snowflake::next_seq`: sets `seq = (seq + 1) % MAX_17_BITS` and
returns the updated value. -/
def Snowflake.next_seq (s : Snowflake) : Snowflake × ℕ :=
  let q := (s.seq + 1) % MAX_17_BITS
  ({ s with seq := q }, q)

/-- The encoding expression of `Snowflake::gen`:
`millis << 19 | (seq << 2) as i64 | service_id as i64`. -/
def encode (millis seq service_id : ℕ) : ℕ :=
  (millis <<< 19) ||| (seq <<< 2) ||| service_id

/-- Method `Snowflake::gen`, with the clock reading passed explicitly.
The first branch resets `seq` on a new millisecond; the second branch is
the exhaustion path (`seq == MAX_17_BITS`), whose sleep is modelled by its
state effect `millis += 1`; then `last_millis = millis` is stored and the
id is encoded from `millis`, `next_seq()` and `service_id`. -/
def Snowflake.gen (s : Snowflake) (millis : ℕ) : Snowflake × ℕ :=
  let seqMillis : ℕ × ℕ :=
    if millis > s.last_millis then
      (0, millis)
    else if s.seq = MAX_17_BITS then
      (s.seq, millis + 1)
    else
      (s.seq, millis)
  let s1 : Snowflake := { s with seq := seqMillis.1, last_millis := seqMillis.2 }
  let r := s1.next_seq
  (r.1, encode seqMillis.2 r.2 s.service_id)

/-- The stall/sleep branch of `Snowflake::gen` is taken exactly when the
current reading is not a new millisecond and `seq == MAX_17_BITS`. -/
def Snowflake.sleeps (s : Snowflake) (millis : ℕ) : Prop :=
  ¬ millis > s.last_millis ∧ s.seq = MAX_17_BITS

instance (s : Snowflake) (millis : ℕ) : Decidable (s.sleeps millis) := by
  unfold Snowflake.sleeps; infer_instance

/-- Wrapper `struct ConcurrentSnowflake`; the `Arc<Mutex<_>>` holds one
`Snowflake`, which is the only semantic content in a sequential model. -/
structure ConcurrentSnowflake where
  inner : Snowflake
deriving DecidableEq, Repr

/-- Constructor `ConcurrentSnowflake::new`: wraps
`Snowflake::with_epoch(service_id, UNIX_EPOCH)`. -/
def ConcurrentSnowflake.new (service_id : ℕ) :
    Except SnowflakeError ConcurrentSnowflake :=
  (Snowflake.with_epoch service_id UNIX_EPOCH).map ConcurrentSnowflake.mk

/-- Constructor `ConcurrentSnowflake::with_epoch`: wraps
`Snowflake::with_epoch(service_id, epoch)`. -/
def ConcurrentSnowflake.with_epoch (service_id epoch : ℕ) :
    Except SnowflakeError ConcurrentSnowflake :=
  (Snowflake.with_epoch service_id epoch).map ConcurrentSnowflake.mk

/-- Run a generator through a list of clock readings, one `gen` call per
reading, collecting the returned ids in order. -/
def runGen : Snowflake → List ℕ → Snowflake × List ℕ
  | s, [] => (s, [])
  | s, m :: ms =>
    let r := s.gen m
    let rest := runGen r.1 ms
    (rest.1, r.2 :: rest.2)

/-- Modelled from the spec: the decoding functions exist only in the spec
(section 4.1, "Decoding ... is the inverse"); `service_id = id & 0b11`. -/
def serviceOf (n : ℕ) : ℕ := n &&& 3

/-- Modelled from the spec: `seq = (id >> 2) & 0x1FFFF`. -/
def seqOf (n : ℕ) : ℕ := (n >>> 2) &&& 0x1FFFF

/-- Modelled from the spec: `millis = id >> 19`. -/
def millisOf (n : ℕ) : ℕ := n >>> 19

/-- The generator produced by `Snowflake::new(0)`. -/
def flake0 : Snowflake :=
  { epoch := 0, service_id := 0, last_millis := 0, seq := 0 }

example : Snowflake.new 0 = Except.ok flake0 := rfl

example : (flake0.gen 5).2 = 2621444 := by decide

/-- Disjoint bit ranges: or-ing a left-shifted value with a value below the
shift amount is addition. -/
lemma shiftLeft_lor_eq_add (a b k : ℕ) (hb : b < 2 ^ k) :
    (a <<< k) ||| b = a <<< k + b := by
  apply Nat.eq_of_testBit_eq
  intro j
  rw [Nat.testBit_lor]
  rcases Nat.lt_or_ge j k with hj | hj
  · have hd : decide (j ≥ k) = false := by simp; omega
    rw [Nat.testBit_shiftLeft, hd]
    simp only [Bool.false_and, Bool.false_or]
    rw [Nat.shiftLeft_eq, Nat.testBit_to_div_mod, Nat.testBit_to_div_mod,
      decide_eq_decide]
    have hkj : k - j + j = k := by omega
    have hk : a * 2 ^ (k - j) * 2 ^ j = a * 2 ^ k := by
      rw [mul_assoc, ← pow_add, hkj]
    have e1 : (a * 2 ^ k + b) / 2 ^ j = b / 2 ^ j + a * 2 ^ (k - j) := by
      rw [← hk, add_comm]
      exact Nat.add_mul_div_right _ _ (by positivity)
    have e2 : a * 2 ^ (k - j) % 2 = 0 := by
      have h1 : k - j = k - j - 1 + 1 := by omega
      rw [h1, pow_succ, ← mul_assoc]
      exact Nat.mul_mod_left _ 2
    rw [e1]
    omega
  · have hb2 : b < 2 ^ j := lt_of_lt_of_le hb (Nat.pow_le_pow_right (by norm_num) hj)
    have hd : decide (j ≥ k) = true := by simpa using hj
    rw [Nat.testBit_lt_two_pow hb2, Nat.testBit_shiftLeft, hd]
    simp only [Bool.true_and, Bool.or_false]
    rw [Nat.shiftLeft_eq, Nat.testBit_to_div_mod, Nat.testBit_to_div_mod,
      decide_eq_decide]
    have hsplit : (2 : ℕ) ^ j = 2 ^ k * 2 ^ (j - k) := by
      rw [← pow_add]
      congr 1
      omega
    have e3 : (a * 2 ^ k + b) / 2 ^ j = a / 2 ^ (j - k) := by
      rw [hsplit, ← Nat.div_div_eq_div_mul, add_comm,
        Nat.add_mul_div_right _ _ (show 0 < 2 ^ k by positivity),
        Nat.div_eq_of_lt hb, Nat.zero_add]
    rw [e3]

/-- The encoding is plain positional arithmetic once the sequence and
service id are in range. -/
lemma encode_eq_add (m q sid : ℕ) (hq : q < 131072) (hsid : sid < 4) :
    encode m q sid = m * 524288 + q * 4 + sid := by
  unfold encode
  have h1 : q <<< 2 < 2 ^ 19 := by
    rw [Nat.shiftLeft_eq]
    norm_num
    omega
  rw [shiftLeft_lor_eq_add m (q <<< 2) 19 h1]
  have h2 : m <<< 19 + q <<< 2 = (m * 2 ^ 17 + q) <<< 2 := by
    rw [Nat.shiftLeft_eq, Nat.shiftLeft_eq, Nat.shiftLeft_eq]
    ring
  rw [h2, shiftLeft_lor_eq_add _ sid 2 (by norm_num; omega)]
  rw [Nat.shiftLeft_eq]
  ring

/-- Spec decoding of the service id is reduction modulo 4. -/
lemma serviceOf_eq_mod (n : ℕ) : serviceOf n = n % 4 := by
  unfold serviceOf
  have h := Nat.and_pow_two_sub_one_eq_mod n 2
  norm_num at h
  exact h

/-- Spec decoding of the sequence is a shift and a 17-bit mask. -/
lemma seqOf_eq_mod (n : ℕ) : seqOf n = n / 4 % 131072 := by
  unfold seqOf
  rw [Nat.shiftRight_eq_div_pow]
  have h := Nat.and_pow_two_sub_one_eq_mod (n / 2 ^ 2) 17
  norm_num at h ⊢
  exact h

/-- Spec decoding of the millisecond field is division by 2 to the 19. -/
lemma millisOf_eq_div (n : ℕ) : millisOf n = n / 524288 := by
  unfold millisOf
  rw [Nat.shiftRight_eq_div_pow]

/-- Decoding inverts the encoder on in-range fields. -/
lemma decode_encode (m q sid : ℕ) (hq : q < 131072) (hsid : sid < 4) :
    serviceOf (encode m q sid) = sid ∧ seqOf (encode m q sid) = q ∧
      millisOf (encode m q sid) = m := by
  rw [encode_eq_add m q sid hq hsid, serviceOf_eq_mod, seqOf_eq_mod, millisOf_eq_div]
  refine ⟨by omega, by omega, by omega⟩

/-- On a fresh millisecond (reading above `last_millis`) a call resets the
sequence and emits sequence value 1. -/
lemma gen_new_ms (s : Snowflake) (m : ℕ) (h : m > s.last_millis) :
    s.gen m = ({ s with seq := 1, last_millis := m }, encode m 1 s.service_id) := by
  simp only [Snowflake.gen, Snowflake.next_seq, if_pos h]
  norm_num [MAX_17_BITS]

/-- When the reading is not above `last_millis` (same millisecond or clock
rollback) and the exhaustion test fails, a call stores the reading in
`last_millis` and advances the sequence modulo `MAX_17_BITS`. -/
lemma gen_no_new_ms (s : Snowflake) (m : ℕ) (h1 : m ≤ s.last_millis)
    (h2 : s.seq ≠ MAX_17_BITS) :
    s.gen m = ({ s with seq := (s.seq + 1) % MAX_17_BITS, last_millis := m },
      encode m ((s.seq + 1) % MAX_17_BITS) s.service_id) := by
  simp only [Snowflake.gen, Snowflake.next_seq, if_neg (Nat.not_lt.mpr h1), if_neg h2]

/-- After any call the stored sequence is strictly below `MAX_17_BITS`. -/
lemma gen_seq_lt (s : Snowflake) (m : ℕ) : ((s.gen m).1).seq < MAX_17_BITS := by
  have hpos : 0 < MAX_17_BITS := by norm_num [MAX_17_BITS]
  simp only [Snowflake.gen, Snowflake.next_seq]
  split <;> [skip; split] <;> exact Nat.mod_lt _ hpos

/-- A call never changes the service id. -/
lemma gen_service_id (s : Snowflake) (m : ℕ) :
    ((s.gen m).1).service_id = s.service_id := by
  simp only [Snowflake.gen, Snowflake.next_seq]

/-- A call never changes the epoch. -/
lemma gen_epoch (s : Snowflake) (m : ℕ) : ((s.gen m).1).epoch = s.epoch := by
  simp only [Snowflake.gen, Snowflake.next_seq]

/-- Running a trace keeps the stored sequence strictly below
`MAX_17_BITS`, provided it starts there. -/
lemma runGen_seq_lt (ms : List ℕ) (s : Snowflake) (h : s.seq < MAX_17_BITS) :
    ((runGen s ms).1).seq < MAX_17_BITS := by
  induction ms generalizing s with
  | nil => exact h
  | cons m ms ih => exact ih _ (gen_seq_lt s m)

/-- Running a trace never changes the service id. -/
lemma runGen_service_id (ms : List ℕ) (s : Snowflake) :
    ((runGen s ms).1).service_id = s.service_id := by
  induction ms generalizing s with
  | nil => rfl
  | cons m ms ih => rw [runGen]; rw [ih]; exact gen_service_id s m

/-- Closed form for a same-millisecond run: `k` calls that all read the
stored millisecond advance the sequence by `k` modulo `MAX_17_BITS` and
leave the rest of the state unchanged. -/
lemma runGen_replicate_fst (k : ℕ) (s : Snowflake) (m : ℕ)
    (h1 : s.last_millis = m) (h2 : s.seq < MAX_17_BITS) :
    (runGen s (List.replicate k m)).1 =
      { s with seq := (s.seq + k) % MAX_17_BITS } := by
  induction k generalizing s with
  | zero =>
    have hq : (s.seq + 0) % MAX_17_BITS = s.seq := by
      rw [Nat.add_zero]
      exact Nat.mod_eq_of_lt h2
    rw [List.replicate_zero, hq]
    rfl
  | succ k ih =>
    rw [List.replicate_succ]
    show (runGen s (m :: List.replicate k m)).1 = _
    rw [runGen, gen_no_new_ms s m (le_of_eq h1.symm) (Nat.ne_of_lt h2)]
    have hlt : (s.seq + 1) % MAX_17_BITS < MAX_17_BITS :=
      Nat.mod_lt _ (by norm_num [MAX_17_BITS])
    rw [ih { s with seq := (s.seq + 1) % MAX_17_BITS, last_millis := m } rfl hlt]
    have hseq : ((s.seq + 1) % MAX_17_BITS + k) % MAX_17_BITS =
        (s.seq + (k + 1)) % MAX_17_BITS := by
      rw [Nat.mod_add_mod]
      congr 1
      omega
    rw [hseq, ← h1]

/-- In the exhaustion branch (reading not above `last_millis` and
`seq = MAX_17_BITS`) the call sleeps, bumps the millisecond by one, and
advances the sequence modulo `MAX_17_BITS`. -/
lemma gen_exhausted (s : Snowflake) (m : ℕ) (h1 : ¬ m > s.last_millis)
    (h2 : s.seq = MAX_17_BITS) :
    s.gen m = ({ s with seq := (s.seq + 1) % MAX_17_BITS, last_millis := m + 1 },
      encode (m + 1) ((s.seq + 1) % MAX_17_BITS) s.service_id) := by
  simp only [Snowflake.gen, Snowflake.next_seq, if_neg h1, if_pos h2]

/-- Success of `with_epoch` means the service id was in range and the
state starts zeroed. -/
lemma with_epoch_ok (sid epoch : ℕ) (g : Snowflake)
    (h : Snowflake.with_epoch sid epoch = Except.ok g) :
    sid ≤ 3 ∧ g = { epoch := epoch, service_id := sid, last_millis := 0, seq := 0 } := by
  by_cases hc : sid > MAX_2_BITS
  · rw [Snowflake.with_epoch, if_pos hc] at h
    exact absurd h (by simp)
  · rw [Snowflake.with_epoch, if_neg hc] at h
    injection h with h
    refine ⟨?_, h.symm⟩
    unfold MAX_2_BITS at hc
    omega

/-- Every id produced along a trace of readings below `2 ^ 44` fits in 63
bits, provided the state starts with an in-range sequence and service id. -/
lemma runGen_ids_lt (ms : List ℕ) (s : Snowflake) (hseq : s.seq < MAX_17_BITS)
    (hsid : s.service_id < 4) (hms : ∀ m ∈ ms, m < 2 ^ 44) :
    ∀ i ∈ (runGen s ms).2, i < 2 ^ 63 := by
  induction ms generalizing s with
  | nil =>
    intro i hi
    simp [runGen] at hi
  | cons m ms ih =>
    intro i hi
    have h44 : (2 : ℕ) ^ 44 = 17592186044416 := by norm_num
    have h63 : (2 : ℕ) ^ 63 = 9223372036854775808 := by norm_num
    have hm : m < 2 ^ 44 := hms m (List.mem_cons_self m ms)
    simp only [runGen, List.mem_cons] at hi
    rcases hi with hi | hi
    · subst hi
      rcases Nat.lt_or_ge s.last_millis m with hnew | hold
      · rw [gen_new_ms s m hnew]
        rw [encode_eq_add m 1 s.service_id (by norm_num) hsid]
        omega
      · rw [gen_no_new_ms s m hold (Nat.ne_of_lt hseq)]
        have ha : MAX_17_BITS = 131071 := rfl
        have hq : (s.seq + 1) % MAX_17_BITS < 131072 := by
          have h := Nat.mod_lt (s.seq + 1) (show 0 < MAX_17_BITS by norm_num [MAX_17_BITS])
          omega
        rw [encode_eq_add m _ s.service_id hq hsid]
        omega
    · exact ih (s.gen m).1 (gen_seq_lt s m)
        (by rw [gen_service_id]; exact hsid)
        (fun x hx => hms x (List.mem_cons_of_mem m hx)) i hi

/-- C1: the spec claims that for every valid service id and every finite
sequence of calls (the clock modelled as arbitrary non-negative
millisecond readings) all returned ids are pairwise distinct.  The code
violates this: from a fresh generator with service id 0, the readings
5, 5, 4, 5 make the first and the fourth call return the same id
2621444, because the rollback reading 4 overwrites `last_millis` and the
following reading 5 resets the sequence. -/
theorem c1_duplicate_ids :
    (runGen flake0 [5, 5, 4, 5]).2 = [2621444, 2621448, 2097164, 2621444] ∧
      ¬ ((runGen flake0 [5, 5, 4, 5]).2).Nodup := by
  decide

/-- C2: the spec claims the in-millisecond successor of sequence value `s`
is `(s + 1) % 131072`; the code's `next_seq` computes
`(s + 1) % MAX_17_BITS = (s + 1) % 131071`.  At the reachable sequence
value 131070 the code wraps to 0 while the claim demands 131071. -/
theorem c2_next_seq_wraps_early :
    (Snowflake.next_seq
        { epoch := 0, service_id := 0, last_millis := 5, seq := 131070 }).2 = 0 ∧
      (131070 + 1) % 131072 = 131071 := by
  decide

/-- C5: the spec claims a clock rollback never decreases the stored
`last_millis` nor the timestamp field of the returned id.  The code lets
`millis < last_millis` fall into the sequence-advance branch and then
stores the smaller reading: after readings 5 then 4, `last_millis` drops
from 5 to 4, the emitted timestamp field drops from 5 to 4, and the
second id is below the first. -/
theorem c5_rollback_decreases :
    ((flake0.gen 5).1.gen 4).1.last_millis < (flake0.gen 5).1.last_millis ∧
      millisOf ((flake0.gen 5).1.gen 4).2 < millisOf (flake0.gen 5).2 ∧
      ((flake0.gen 5).1.gen 4).2 < (flake0.gen 5).2 := by
  decide

/-- C8: construction (`new` and `with_epoch`, for both `Snowflake` and
`ConcurrentSnowflake`) fails with `InvalidServiceIdError` exactly when the
service id exceeds 3, and on success returns the given epoch and service
id with `last_millis = 0` and `seq = 0`. -/
theorem c8_construction (sid epoch : ℕ) :
    (Snowflake.with_epoch sid epoch =
        Except.error SnowflakeError.InvalidServiceIdError ↔ sid > 3) ∧
      (Snowflake.new sid =
        Except.error SnowflakeError.InvalidServiceIdError ↔ sid > 3) ∧
      (ConcurrentSnowflake.with_epoch sid epoch =
        Except.error SnowflakeError.InvalidServiceIdError ↔ sid > 3) ∧
      (ConcurrentSnowflake.new sid =
        Except.error SnowflakeError.InvalidServiceIdError ↔ sid > 3) ∧
      (sid ≤ 3 → Snowflake.with_epoch sid epoch = Except.ok
        { epoch := epoch, service_id := sid, last_millis := 0, seq := 0 }) ∧
      (sid ≤ 3 → ConcurrentSnowflake.with_epoch sid epoch = Except.ok
        ⟨{ epoch := epoch, service_id := sid, last_millis := 0, seq := 0 }⟩) := by
  by_cases h : sid > 3 <;>
    simp [Snowflake.with_epoch, ConcurrentSnowflake.with_epoch, Snowflake.new,
      ConcurrentSnowflake.new, UNIX_EPOCH, MAX_2_BITS, h, Except.map]

/-- Witness for C8 at service id 2 and epoch 7. -/
theorem c8_construction_witness :
    Snowflake.with_epoch 2 7 = Except.ok
        { epoch := 7, service_id := 2, last_millis := 0, seq := 0 } ∧
      ConcurrentSnowflake.with_epoch 2 7 = Except.ok
        ⟨{ epoch := 7, service_id := 2, last_millis := 0, seq := 0 }⟩ :=
  ⟨(c8_construction 2 7).2.2.2.2.1 (by norm_num),
    (c8_construction 2 7).2.2.2.2.2 (by norm_num)⟩

/-- C3: the spec claims that 131072 calls inside one simulated millisecond
make the 131072nd call roll into the next millisecond with the sequence
reset to 0 and no duplicated `(millis, seq)` pair.  In the code the
exhaustion test never fires: from a fresh generator, 131072 calls all
reading millisecond 1 leave the 131072nd id at millisecond field 1 and
sequence field 1, an exact duplicate of the first call's id. -/
theorem c3_no_rollover_duplicate_pair :
    ((runGen (flake0.gen 1).1 (List.replicate 131070 1)).1.gen 1).2 =
        (flake0.gen 1).2 ∧
      millisOf ((runGen (flake0.gen 1).1 (List.replicate 131070 1)).1.gen 1).2 = 1 ∧
      seqOf ((runGen (flake0.gen 1).1 (List.replicate 131070 1)).1.gen 1).2 = 1 := by
  have h0 : (flake0.gen 1).1 =
      { epoch := 0, service_id := 0, last_millis := 1, seq := 1 } := by decide
  have hstate : (runGen (flake0.gen 1).1 (List.replicate 131070 1)).1 =
      { epoch := 0, service_id := 0, last_millis := 1, seq := 0 } := by
    rw [h0, runGen_replicate_fst 131070 _ 1 rfl (by norm_num [MAX_17_BITS])]
    decide
  rw [hstate]
  decide

/-- C4: the spec claims ids from one generator are strictly increasing as
long as the clock never moves backward.  With the clock pinned at
millisecond 1 (non-decreasing), the 131071st call's id 524288 is smaller
than the 131070th call's id 1048568, because `next_seq` wraps the
sequence to 0 one step before the exhaustion test can fire. -/
theorem c4_not_strictly_increasing :
    ((((runGen (flake0.gen 1).1 (List.replicate 131068 1)).1.gen 1).1.gen 1).2 <
        ((runGen (flake0.gen 1).1 (List.replicate 131068 1)).1.gen 1).2) ∧
      ((runGen (flake0.gen 1).1 (List.replicate 131068 1)).1.gen 1).2 = 1048568 ∧
      (((runGen (flake0.gen 1).1 (List.replicate 131068 1)).1.gen 1).1.gen 1).2 =
        524288 := by
  have h0 : (flake0.gen 1).1 =
      { epoch := 0, service_id := 0, last_millis := 1, seq := 1 } := by decide
  have hstate : (runGen (flake0.gen 1).1 (List.replicate 131068 1)).1 =
      { epoch := 0, service_id := 0, last_millis := 1, seq := 131069 } := by
    rw [h0, runGen_replicate_fst 131068 _ 1 rfl (by norm_num [MAX_17_BITS])]
    decide
  rw [hstate]
  decide

/-- C9: the spec claims that when call A precedes call B in the same
millisecond without sequence exhaustion, the decoded sequence of A is
strictly below that of B and the decoded millisecond fields agree.  In
the code the sequence wraps to 0 after 131071 in-millisecond calls while
the exhaustion branch never fires: with A the first call and B the
131071st (all reading millisecond 1), decode(A).seq = 1 while
decode(B).seq = 0, though the millisecond fields agree and neither call
satisfies the stall condition. -/
theorem c9_same_ms_seq_wraps :
    seqOf (flake0.gen 1).2 = 1 ∧
      seqOf ((runGen (flake0.gen 1).1 (List.replicate 131069 1)).1.gen 1).2 = 0 ∧
      millisOf ((runGen (flake0.gen 1).1 (List.replicate 131069 1)).1.gen 1).2 =
        millisOf (flake0.gen 1).2 ∧
      ¬ flake0.sleeps 1 ∧
      ¬ ((runGen (flake0.gen 1).1 (List.replicate 131069 1)).1).sleeps 1 := by
  have h0 : (flake0.gen 1).1 =
      { epoch := 0, service_id := 0, last_millis := 1, seq := 1 } := by decide
  have hstate : (runGen (flake0.gen 1).1 (List.replicate 131069 1)).1 =
      { epoch := 0, service_id := 0, last_millis := 1, seq := 131070 } := by
    rw [h0, runGen_replicate_fst 131069 _ 1 rfl (by norm_num [MAX_17_BITS])]
    decide
  rw [hstate]
  decide

/-- C6: the encoder is the total pure function
`id = (millis << 19) | (seq << 2) | service_id`, and for all fields in
range the spec's decoding functions invert it; consequently the decoded
service id of any id emitted by `gen` is the generator's service id. -/
theorem c6_encode_decode :
    (∀ m q sid : ℕ, m < 2 ^ 44 → q ≤ 131071 → sid ≤ 3 →
      serviceOf (encode m q sid) = sid ∧ seqOf (encode m q sid) = q ∧
        millisOf (encode m q sid) = m) ∧
    (∀ (s : Snowflake) (millis : ℕ), s.service_id ≤ 3 →
      serviceOf ((s.gen millis).2) = s.service_id) := by
  constructor
  · intro m q sid hm hq hsid
    exact decode_encode m q sid (by omega) (by omega)
  · intro s millis hsid
    have ha : MAX_17_BITS = 131071 := rfl
    have hq : (s.seq + 1) % MAX_17_BITS < 131072 := by
      have h := Nat.mod_lt (s.seq + 1) (show 0 < MAX_17_BITS by norm_num [MAX_17_BITS])
      omega
    by_cases h1 : millis > s.last_millis
    · rw [gen_new_ms s millis h1]
      exact (decode_encode millis 1 s.service_id (by norm_num) (by omega)).1
    · by_cases h2 : s.seq = MAX_17_BITS
      · rw [gen_exhausted s millis h1 h2]
        exact (decode_encode _ _ s.service_id hq (by omega)).1
      · rw [gen_no_new_ms s millis (Nat.le_of_not_lt h1) h2]
        exact (decode_encode _ _ s.service_id hq (by omega)).1

/-- Witness for C6 at millis 5, seq 7, service id 2, and one `gen` call. -/
theorem c6_encode_decode_witness :
    serviceOf (encode 5 7 2) = 2 ∧ seqOf (encode 5 7 2) = 7 ∧
      millisOf (encode 5 7 2) = 5 ∧ serviceOf ((flake0.gen 9).2) = 0 := by
  have h := c6_encode_decode
  have h1 := h.1 5 7 2 (by norm_num) (by norm_num) (by norm_num)
  exact ⟨h1.1, h1.2.1, h1.2.2, h.2 flake0 9 (by norm_num [flake0])⟩

/-- C7: every id returned along any trace of a constructed generator whose
clock readings all fit in 44 bits is below `2 ^ 63`, i.e. its sign bit as
an `i64` is 0. -/
theorem c7_ids_fit_63_bits (sid epoch : ℕ) (g : Snowflake) (ms : List ℕ)
    (hok : Snowflake.with_epoch sid epoch = Except.ok g)
    (hms : ∀ m ∈ ms, m < 2 ^ 44) :
    ∀ i ∈ (runGen g ms).2, i < 2 ^ 63 := by
  obtain ⟨hsid, hg⟩ := with_epoch_ok sid epoch g hok
  refine runGen_ids_lt ms g ?_ ?_ hms
  · rw [hg]
    norm_num [MAX_17_BITS]
  · rw [hg]
    show sid < 4
    omega

/-- Witness for C7: the id of the first call of a generator with service
id 2 at reading 5 is below `2 ^ 63`. -/
theorem c7_ids_fit_63_bits_witness : (2621446 : ℕ) < 2 ^ 63 :=
  c7_ids_fit_63_bits 2 7
    { epoch := 7, service_id := 2, last_millis := 0, seq := 0 } [5] rfl
    (by decide) 2621446 (by decide)

/-- C10: in every state reachable from construction the stored sequence is
at most 131070, so the exhaustion test `seq == MAX_17_BITS` of `gen` is
never true and the stall/sleep branch is unreachable. -/
theorem c10_seq_invariant (sid epoch : ℕ) (g : Snowflake) (ms : List ℕ) (m : ℕ)
    (hok : Snowflake.with_epoch sid epoch = Except.ok g) :
    (runGen g ms).1.seq ≤ 131070 ∧ ¬ (runGen g ms).1.sleeps m := by
  obtain ⟨hsid, hg⟩ := with_epoch_ok sid epoch g hok
  have h1 : (runGen g ms).1.seq < MAX_17_BITS := by
    refine runGen_seq_lt ms g ?_
    rw [hg]
    norm_num [MAX_17_BITS]
  have ha : MAX_17_BITS = 131071 := rfl
  refine ⟨by omega, fun hs => ?_⟩
  exact absurd hs.2 (Nat.ne_of_lt h1)

/-- Witness for C10 on the trace 5, 5 of a generator with service id 2. -/
theorem c10_seq_invariant_witness :
    (runGen { epoch := 7, service_id := 2, last_millis := 0, seq := 0 }
        [5, 5]).1.seq ≤ 131070 ∧
      ¬ (runGen { epoch := 7, service_id := 2, last_millis := 0, seq := 0 }
        [5, 5]).1.sleeps 5 :=
  c10_seq_invariant 2 7 _ [5, 5] 5 rfl
